import Mathlib

/-
Verification of the on-policy trajectory pipeline of the rl-basics repository
(PPO / A2C variants): the GAE advantage estimator, TD targets, advantage
normalization, learning-rate annealing, the clip-fraction diagnostic, the
global step counter, the minibatch loss path, and the rollout buffer.

Numeric arrays are modelled over the rationals: the spec fixes algorithmic
semantics, not floating-point bit patterns.  A table of shape
[num_steps, num_envs] is modelled as a function from the time index and the
lane index to a rational; the num_envs argument of the Python functions only
fixes array shapes and is therefore dropped.
-/

namespace RLBasics

/-- Loop state of the backward GAE recurrence: the advantage table written so
far, the running advantage accumulator (the variable named adv in the
sources) and the value estimate of the step after the current one (named
last_value in the Flax sources, next_state_value in the PyTorch source). -/
@[ext]
structure GaeState where
  advantages : ℕ → ℕ → ℚ
  adv : ℕ → ℚ
  lastValue : ℕ → ℚ

/-- One iteration of the backward loop of compute_advantages in
flax_ppo_atari.py (identical in flax_a2c_atari.py): at index i it computes
returns = rewards[i] + gamma * flags[i] * last_value,
delta = returns - values[i], adv = delta + gamma * gae * flags[i] * adv,
writes adv into the advantage table at i, and sets last_value = values[i].
Here flags is the stored continuation mask (1.0 - logical_or(terminated,
truncated)). -/
def gaeStep (rewards values flags : ℕ → ℕ → ℚ) (gamma gae : ℚ) (i : ℕ)
    (s : GaeState) : GaeState :=
  let ret := fun n => rewards i n + gamma * flags i n * s.lastValue n
  let delta := fun n => ret n - values i n
  let adv := fun n => delta n + gamma * gae * flags i n * s.adv n
  { advantages := fun t n => if t = i then adv n else s.advantages t n
    adv := adv
    lastValue := fun n => values i n }

/-- The loop for i in reversed(range(num_steps)) of compute_advantages in the
Flax sources: gaeRun k s processes indices k-1, k-2, ..., 0 starting from
state s. -/
def gaeRun (rewards values flags : ℕ → ℕ → ℚ) (gamma gae : ℚ) :
    ℕ → GaeState → GaeState
  | 0, s => s
  | i + 1, s =>
    gaeRun rewards values flags gamma gae i
      (gaeStep rewards values flags gamma gae i s)

/-- compute_advantages of flax_ppo_atari.py lines 73-87 (textually identical
in flax_a2c_atari.py lines 69-83): advantages and adv start at zero, the
backward loop runs over reversed(range(num_steps)), and the advantage table
is returned. -/
def compute_advantages (rewards values flags : ℕ → ℕ → ℚ)
    (last_value : ℕ → ℚ) (gamma gae : ℚ) (num_steps : ℕ) : ℕ → ℕ → ℚ :=
  (gaeRun rewards values flags gamma gae num_steps
    { advantages := fun _ _ => 0
      adv := fun _ => 0
      lastValue := last_value }).advantages

/-- One iteration of the backward advantage loop of ppo_continuous.py lines
268-277: terminal = 1 - flags[i] (flags stores the done indicator there),
returns = rewards[i] + gamma * next_state_value * terminal,
delta = returns - state_values[i],
adv = gamma * gae * adv * terminal + delta, the table is written at i and
next_state_value = state_values[i]. -/
def torchGaeStep (rewards state_values flags : ℕ → ℕ → ℚ) (gamma gae : ℚ)
    (i : ℕ) (s : GaeState) : GaeState :=
  let terminal := fun n => 1 - flags i n
  let ret := fun n => rewards i n + gamma * s.lastValue n * terminal n
  let delta := fun n => ret n - state_values i n
  let adv := fun n => gamma * gae * s.adv n * terminal n + delta n
  { advantages := fun t n => if t = i then adv n else s.advantages t n
    adv := adv
    lastValue := fun n => state_values i n }

/-- The loop for i in reversed(range(rewards.size(0))) of ppo_continuous.py. -/
def torchGaeRun (rewards state_values flags : ℕ → ℕ → ℚ) (gamma gae : ℚ) :
    ℕ → GaeState → GaeState
  | 0, s => s
  | i + 1, s =>
    torchGaeRun rewards state_values flags gamma gae i
      (torchGaeStep rewards state_values flags gamma gae i s)

/-- The advantage computation of ppo_continuous.py lines 265-277: advantages
and adv start at zero and next_state_value is the bootstrap critic value of
the state after the trajectory. -/
def torch_advantages (rewards state_values flags : ℕ → ℕ → ℚ)
    (next_state_value : ℕ → ℚ) (gamma gae : ℚ) (num_steps : ℕ) :
    ℕ → ℕ → ℚ :=
  (torchGaeRun rewards state_values flags gamma gae num_steps
    { advantages := fun _ _ => 0
      adv := fun _ => 0
      lastValue := next_state_value }).advantages

/-- Reward table of the end-to-end scenario: every reward is 1. -/
def scenarioRewards : ℕ → ℕ → ℚ := fun _ _ => 1

/-- Value-estimate table of the end-to-end scenario: all zero. -/
def scenarioValues : ℕ → ℕ → ℚ := fun _ _ => 0

/-- Continuation mask [1, 1, 1, 0] of the end-to-end scenario, as stored by
the Flax variants. -/
def scenarioCont : ℕ → ℕ → ℚ := fun t _ => if t = 3 then 0 else 1

/-- Done-flag table [0, 0, 0, 1] of the end-to-end scenario, as stored by the
PyTorch variant. -/
def scenarioDone : ℕ → ℕ → ℚ := fun t _ => if t = 3 then 1 else 0

/-- C1: with horizon 4, one lane, rewards all 1, gamma = 1/2, lambda = 1,
continuation mask [1,1,1,0], zero value estimates and zero bootstrap, the
estimator returns advantages 1.875, 1.75, 1.5, 1 at t = 0, 1, 2, 3, in both
the Flax and the PyTorch variant. -/
theorem gae_end_to_end_scenario :
    compute_advantages scenarioRewards scenarioValues scenarioCont
        (fun _ => 0) (1 / 2) 1 4 0 0 = 15 / 8 ∧
    compute_advantages scenarioRewards scenarioValues scenarioCont
        (fun _ => 0) (1 / 2) 1 4 1 0 = 7 / 4 ∧
    compute_advantages scenarioRewards scenarioValues scenarioCont
        (fun _ => 0) (1 / 2) 1 4 2 0 = 3 / 2 ∧
    compute_advantages scenarioRewards scenarioValues scenarioCont
        (fun _ => 0) (1 / 2) 1 4 3 0 = 1 ∧
    torch_advantages scenarioRewards scenarioValues scenarioDone
        (fun _ => 0) (1 / 2) 1 4 0 0 = 15 / 8 ∧
    torch_advantages scenarioRewards scenarioValues scenarioDone
        (fun _ => 0) (1 / 2) 1 4 1 0 = 7 / 4 ∧
    torch_advantages scenarioRewards scenarioValues scenarioDone
        (fun _ => 0) (1 / 2) 1 4 2 0 = 3 / 2 ∧
    torch_advantages scenarioRewards scenarioValues scenarioDone
        (fun _ => 0) (1 / 2) 1 4 3 0 = 1 := by
  norm_num [compute_advantages, torch_advantages, gaeRun, torchGaeRun,
    gaeStep, torchGaeStep, scenarioRewards, scenarioValues, scenarioCont,
    scenarioDone]

/-- Entries of the advantage table at or above the remaining loop range are
not touched by the backward loop. -/
theorem gaeRun_advantages_frame (rewards values flags : ℕ → ℕ → ℚ)
    (gamma gae : ℚ) :
    ∀ (i : ℕ) (s : GaeState) (t n : ℕ), i ≤ t →
      (gaeRun rewards values flags gamma gae i s).advantages t n =
        s.advantages t n := by
  intro i
  induction i with
  | zero => intro s t n _; rfl
  | succ j ih =>
    intro s t n ht
    rw [gaeRun, ih _ t n (by omega)]
    simp only [gaeStep]
    rw [if_neg (by omega)]

/-- Closed form of the backward loop when the trace-decay parameter gae is 0:
the entry at t is the one-step TD error, using the state's lastValue as the
bootstrap for the topmost processed step. -/
theorem gaeRun_gae_zero (rewards values flags : ℕ → ℕ → ℚ) (gamma : ℚ) :
    ∀ (i : ℕ) (s : GaeState) (t n : ℕ), t < i →
      (gaeRun rewards values flags gamma 0 i s).advantages t n =
        rewards t n +
          gamma * flags t n *
            (if t + 1 < i then values (t + 1) n else s.lastValue n) -
          values t n := by
  intro i
  induction i with
  | zero => intro s t n ht; omega
  | succ j ih =>
    intro s t n ht
    rcases Nat.lt_succ_iff_lt_or_eq.mp ht with h | h
    · rw [gaeRun, ih _ t n h]
      have h1 : (gaeStep rewards values flags gamma 0 j s).lastValue n =
          values j n := rfl
      by_cases h2 : t + 1 < j
      · rw [if_pos h2, if_pos (by omega)]
      · have h3 : t + 1 = j := by omega
        rw [if_neg h2, if_pos (by omega), h1, h3]
    · subst h
      rw [gaeRun,
        gaeRun_advantages_frame rewards values flags gamma 0 t _ t n le_rfl]
      simp only [gaeStep]
      rw [if_pos trivial, if_neg (by omega)]
      ring

/-- C2: when the GAE trace-decay parameter is 0, the advantage at every time
step t of every lane n is the one-step TD error
reward[t] + gamma * value[t+1] * continuation[t] - value[t], with the
bootstrap value standing in for value at index num_steps.  The right-hand
side mentions no other entry of the advantage table, so the value is
independent of the advantages at all other time steps. -/
theorem gae_zero_one_step_td (rewards values flags : ℕ → ℕ → ℚ)
    (last_value : ℕ → ℚ) (gamma : ℚ) (num_steps t n : ℕ)
    (ht : t < num_steps) :
    compute_advantages rewards values flags last_value gamma 0 num_steps t n =
      rewards t n +
        gamma *
          (if t + 1 < num_steps then values (t + 1) n else last_value n) *
          flags t n -
        values t n := by
  unfold compute_advantages
  rw [gaeRun_gae_zero rewards values flags gamma num_steps _ t n ht]
  ring

/-- Witness for C2: a concrete one-step trajectory where the theorem applies,
the hypothesis holding by decide. -/
theorem gae_zero_one_step_td_witness :
    0 < 1 ∧
    compute_advantages (fun _ _ => 3) (fun _ _ => 5) (fun _ _ => 1)
        (fun _ => 7) (1 / 2) 0 1 0 0 =
      3 + 1 / 2 * (if 0 + 1 < 1 then (5 : ℚ) else 7) * 1 - 5 :=
  ⟨by decide,
   gae_zero_one_step_td (fun _ _ => 3) (fun _ _ => 5) (fun _ _ => 1)
     (fun _ => 7) (1 / 2) 1 0 0 (by decide)⟩

/-- TD-target table of the Flax variants (flax_ppo_atari.py line 299,
flax_a2c_atari.py): td_target = advantages + values. -/
def td_target (rewards values flags : ℕ → ℕ → ℚ) (last_value : ℕ → ℚ)
    (gamma gae : ℚ) (num_steps : ℕ) : ℕ → ℕ → ℚ :=
  fun t n =>
    compute_advantages rewards values flags last_value gamma gae num_steps t n
      + values t n

/-- TD-target table of ppo_continuous.py line 279:
td_target = advantages + state_values (before advantage normalization). -/
def torch_td_target (rewards state_values flags : ℕ → ℕ → ℚ)
    (next_state_value : ℕ → ℚ) (gamma gae : ℚ) (num_steps : ℕ) :
    ℕ → ℕ → ℚ :=
  fun t n =>
    torch_advantages rewards state_values flags next_state_value gamma gae
      num_steps t n + state_values t n

/-- C3: after advantage estimation, the TD target equals the computed
advantage plus the stored value estimate, for every time step and lane, in
both the Flax variants and the PyTorch variant. -/
theorem td_target_eq_advantage_plus_value (rewards values flags : ℕ → ℕ → ℚ)
    (last_value : ℕ → ℚ) (gamma gae : ℚ) (num_steps t n : ℕ) :
    td_target rewards values flags last_value gamma gae num_steps t n =
      compute_advantages rewards values flags last_value gamma gae num_steps
        t n + values t n ∧
    torch_td_target rewards values flags last_value gamma gae num_steps t n =
      torch_advantages rewards values flags last_value gamma gae num_steps
        t n + values t n :=
  ⟨rfl, rfl⟩

/-- The two loop bodies agree when the Flax continuation flag is the
pre-negated PyTorch done flag. -/
theorem torchGaeStep_eq_gaeStep (rewards values dflags cflags : ℕ → ℕ → ℚ)
    (gamma gae : ℚ) (h : ∀ t n, cflags t n = 1 - dflags t n) (i : ℕ)
    (s : GaeState) :
    torchGaeStep rewards values dflags gamma gae i s =
      gaeStep rewards values cflags gamma gae i s := by
  have hadv : ∀ n,
      gamma * gae * s.adv n * (1 - dflags i n) +
          (rewards i n + gamma * s.lastValue n * (1 - dflags i n) -
            values i n) =
        rewards i n + gamma * cflags i n * s.lastValue n - values i n +
          gamma * gae * cflags i n * s.adv n := by
    intro n
    rw [h]
    ring
  simp only [torchGaeStep, gaeStep, GaeState.mk.injEq]
  refine ⟨?_, ?_, trivial⟩
  · funext t n
    by_cases ht : t = i
    · rw [if_pos ht, if_pos ht, hadv]
    · rw [if_neg ht, if_neg ht]
  · funext n
    exact hadv n

/-- The full backward loops agree under the same flag correspondence. -/
theorem torchGaeRun_eq_gaeRun (rewards values dflags cflags : ℕ → ℕ → ℚ)
    (gamma gae : ℚ) (h : ∀ t n, cflags t n = 1 - dflags t n) :
    ∀ (i : ℕ) (s : GaeState),
      torchGaeRun rewards values dflags gamma gae i s =
        gaeRun rewards values cflags gamma gae i s := by
  intro i
  induction i with
  | zero => intro s; rfl
  | succ j ih =>
    intro s
    rw [torchGaeRun, gaeRun,
      torchGaeStep_eq_gaeStep rewards values dflags cflags gamma gae h, ih]

/-- C4: given the same reward table, value-estimate table, bootstrap value,
gamma, lambda, and the same per-step terminated/truncated indicators, the
PyTorch variant (storing the done indicator and consuming it as 1 - flag)
and the Flax variants (storing the pre-negated continuation flag and
consuming it directly) compute identical advantage tables. -/
theorem torch_flax_advantage_equivalence (rewards values : ℕ → ℕ → ℚ)
    (terminated truncated : ℕ → ℕ → Bool) (last_value : ℕ → ℚ)
    (gamma gae : ℚ) (num_steps t n : ℕ) :
    torch_advantages rewards values
        (fun t n => if terminated t n || truncated t n then 1 else 0)
        last_value gamma gae num_steps t n =
      compute_advantages rewards values
        (fun t n => 1 - if terminated t n || truncated t n then 1 else 0)
        last_value gamma gae num_steps t n := by
  unfold torch_advantages compute_advantages
  rw [torchGaeRun_eq_gaeRun rewards values
    (fun t n => if terminated t n || truncated t n then 1 else 0)
    (fun t n => 1 - if terminated t n || truncated t n then 1 else 0)
    gamma gae (fun _ _ => rfl)]

/-- Mean of a flattened batch, as numpy mean and torch mean compute it. -/
def batchMean (xs : List ℚ) : ℚ :=
  xs.sum / xs.length

/-- Population variance of a batch: the square of numpy std, used by the
Flax variants (flax_ppo_atari.py line 302). -/
def batchVar (xs : List ℚ) : ℚ :=
  batchMean (xs.map fun x => (x - batchMean xs) ^ 2)

/-- Bessel-corrected variance of a batch: the square of the default torch
std, used by ppo_continuous.py lines 280-281. -/
def batchVarUnbiased (xs : List ℚ) : ℚ :=
  (xs.map fun x => (x - batchMean xs) ^ 2).sum / ((xs.length : ℚ) - 1)

/-- Advantage normalization of flax_ppo_atari.py line 302:
advantages = (advantages - advantages.mean()) / (advantages.std() + 1e-8).
The standard deviation leaves the rationals, so it enters as the argument s,
constrained to s ^ 2 = batchVar xs in the theorems. -/
def normalize_advantages (xs : List ℚ) (s : ℚ) : List ℚ :=
  xs.map fun x => (x - batchMean xs) / (s + 1 / 10 ^ 8)

/-- Advantage normalization of ppo_continuous.py lines 280-281:
advantages = (advantages - advantages.mean()) / (advantages.std() + 1e-7),
with the Bessel-corrected torch std entering as the argument s. -/
def torch_normalize_advantages (xs : List ℚ) (s : ℚ) : List ℚ :=
  xs.map fun x => (x - batchMean xs) / (s + 1 / 10 ^ 7)

theorem sum_map_div (xs : List ℚ) (f : ℚ → ℚ) (c : ℚ) :
    (xs.map fun x => f x / c).sum = (xs.map f).sum / c := by
  induction xs with
  | nil => simp
  | cons a l ih => simp only [List.map_cons, List.sum_cons, ih, add_div]

theorem sum_map_sub_const (xs : List ℚ) (c : ℚ) :
    (xs.map fun x => x - c).sum = xs.sum - xs.length * c := by
  induction xs with
  | nil => simp
  | cons a l ih =>
    simp only [List.map_cons, List.sum_cons, ih, List.length_cons]
    push_cast
    ring

theorem sum_map_center (xs : List ℚ) (h : xs ≠ []) :
    (xs.map fun x => x - batchMean xs).sum = 0 := by
  have hl : (xs.length : ℚ) ≠ 0 := by
    exact_mod_cast (List.length_pos_of_ne_nil h).ne'
  rw [sum_map_sub_const, batchMean, mul_div_cancel₀ _ hl, sub_self]

theorem batchMean_map_div (xs : List ℚ) (f : ℚ → ℚ) (c : ℚ) :
    batchMean (xs.map fun x => f x / c) = batchMean (xs.map f) / c := by
  unfold batchMean
  rw [List.length_map, sum_map_div, List.length_map, div_right_comm]

theorem batchMean_center_scaled (xs : List ℚ) (c : ℚ) (h : xs ≠ []) :
    batchMean (xs.map fun x => (x - batchMean xs) / c) = 0 := by
  rw [batchMean_map_div, batchMean, sum_map_center xs h, zero_div, zero_div]

theorem map_sq_center_scaled (xs : List ℚ) (c : ℚ) (h : xs ≠ []) :
    ((xs.map fun x => (x - batchMean xs) / c).map fun y =>
        (y - batchMean (xs.map fun x => (x - batchMean xs) / c)) ^ 2) =
      xs.map fun x => (x - batchMean xs) ^ 2 / c ^ 2 := by
  rw [batchMean_center_scaled xs c h, List.map_map]
  refine List.map_congr_left fun x _ => ?_
  simp only [Function.comp_apply, sub_zero, div_pow]

/-- Scaling a centered batch by 1 / c divides its population variance by
c ^ 2. -/
theorem batchVar_center_scaled (xs : List ℚ) (c : ℚ) (h : xs ≠ []) :
    batchVar (xs.map fun x => (x - batchMean xs) / c) = batchVar xs / c ^ 2 := by
  unfold batchVar
  rw [map_sq_center_scaled xs c h, batchMean_map_div]

/-- Scaling a centered batch by 1 / c divides its Bessel-corrected variance
by c ^ 2. -/
theorem batchVarUnbiased_center_scaled (xs : List ℚ) (c : ℚ) (h : xs ≠ []) :
    batchVarUnbiased (xs.map fun x => (x - batchMean xs) / c) =
      batchVarUnbiased xs / c ^ 2 := by
  unfold batchVarUnbiased
  rw [map_sq_center_scaled xs c h, List.length_map, sum_map_div,
    div_right_comm]

/-- C5: for any batch with non-zero variance (represented by a positive
standard deviation s with s ^ 2 equal to the batch variance), the normalized
advantages have mean exactly 0 and standard deviation s / (s + epsilon),
that is, variance (s / (s + epsilon)) ^ 2 - in the Flax variant (population
std, epsilon = 1e-8) and in the PyTorch variant (Bessel-corrected std,
epsilon = 1e-7).  Both normalizations are pure functions of the current
batch alone, so the statistics are batch-local and not persisted. -/
theorem advantage_normalization_batch_stats (xs ys : List ℚ) (s u : ℚ)
    (hx : xs ≠ []) (hs : 0 < s) (hvar : s ^ 2 = batchVar xs)
    (hy : ys ≠ []) (hu : 0 < u) (huvar : u ^ 2 = batchVarUnbiased ys) :
    (batchMean (normalize_advantages xs s) = 0 ∧
      batchVar (normalize_advantages xs s) = (s / (s + 1 / 10 ^ 8)) ^ 2) ∧
    (batchMean (torch_normalize_advantages ys u) = 0 ∧
      batchVarUnbiased (torch_normalize_advantages ys u) =
        (u / (u + 1 / 10 ^ 7)) ^ 2) := by
  refine ⟨⟨batchMean_center_scaled xs _ hx, ?_⟩,
    ⟨batchMean_center_scaled ys _ hy, ?_⟩⟩
  · rw [normalize_advantages, batchVar_center_scaled xs _ hx, ← hvar,
      div_pow]
  · rw [torch_normalize_advantages, batchVarUnbiased_center_scaled ys _ hy,
      ← huvar, div_pow]

theorem batchVar_two_zero_two_zero : (1 : ℚ) ^ 2 = batchVar [2, 0, 2, 0] := by
  norm_num [batchVar, batchMean]

theorem batchVarUnbiased_one_negone_zero :
    (1 : ℚ) ^ 2 = batchVarUnbiased [1, -1, 0] := by
  norm_num [batchVarUnbiased, batchMean]

/-- Witness for C5: concrete batches whose standard deviations are rational,
the hypotheses holding by decide or by evaluated helper lemmas. -/
theorem advantage_normalization_batch_stats_witness :
    ((1 : ℚ) ^ 2 = batchVar [2, 0, 2, 0] ∧
      (1 : ℚ) ^ 2 = batchVarUnbiased [1, -1, 0]) ∧
    ((batchMean (normalize_advantages [2, 0, 2, 0] 1) = 0 ∧
        batchVar (normalize_advantages [2, 0, 2, 0] 1) =
          (1 / (1 + 1 / 10 ^ 8)) ^ 2) ∧
      (batchMean (torch_normalize_advantages [1, -1, 0] 1) = 0 ∧
        batchVarUnbiased (torch_normalize_advantages [1, -1, 0] 1) =
          (1 / (1 + 1 / 10 ^ 7)) ^ 2)) :=
  ⟨⟨batchVar_two_zero_two_zero, batchVarUnbiased_one_negone_zero⟩,
   advantage_normalization_batch_stats [2, 0, 2, 0] [1, -1, 0] 1 1
     (by decide) (by decide) batchVar_two_zero_two_zero (by decide)
     (by decide) batchVarUnbiased_one_negone_zero⟩

/-- Learning-rate annealing of ppo_continuous.py lines 217-220:
frac = 1 - (update - 1) / num_updates, new_lr = frac * learning_rate, where
update runs over range(num_updates) and the subtraction is a float
subtraction (so update = 0 gives frac greater than 1). -/
def annealed_lr (learning_rate : ℚ) (update num_updates : ℕ) : ℚ :=
  (1 - ((update : ℚ) - 1) / num_updates) * learning_rate

/-- Counterexample to C6: at the first update (index 0) with num_updates = 2
and base rate 1, the code applies 3/2, not 1 - 0/2 = 1 as claimed. -/
theorem annealed_lr_counterexample :
    annealed_lr 1 0 2 ≠ 1 * (1 - (0 : ℚ) / 2) := by
  norm_num [annealed_lr]

/-- C6 amended: the applied learning rate is
base_lr * (1 - (update_index - 1) / num_updates), i.e. it exceeds the
claimed schedule base_lr * (1 - update_index / num_updates) by exactly
base_lr / num_updates at every update. -/
theorem annealed_lr_off_by_one (learning_rate : ℚ) (update num_updates : ℕ)
    (h : 0 < num_updates) :
    annealed_lr learning_rate update num_updates =
      learning_rate * (1 - (update : ℚ) / num_updates) +
        learning_rate / num_updates := by
  have hn : ((num_updates : ℚ)) ≠ 0 := Nat.cast_ne_zero.mpr h.ne'
  unfold annealed_lr
  field_simp
  ring

/-- Witness for C6 amended at update 0 of 2 with base rate 1. -/
theorem annealed_lr_off_by_one_witness :
    0 < 2 ∧
    annealed_lr 1 0 2 = 1 * (1 - (0 : ℚ) / 2) + 1 / 2 :=
  ⟨by decide, annealed_lr_off_by_one 1 0 2 (by decide)⟩

/-- Number of minibatch entries whose importance quotient r satisfies
eps < |r - 1|. -/
def countAbove (eps : ℚ) : List ℚ → ℕ
  | [] => 0
  | r :: rest => (if eps < |r - 1| then 1 else 0) + countAbove eps rest

/-- Clip-fraction diagnostic of ppo_continuous.py line 316:
((ratios - 1.).abs() > 0.2).float().mean().  The threshold is the literal
0.2, not args.eps_clip. -/
def clip_fraction (quotients : List ℚ) : ℚ :=
  (countAbove (1 / 5) quotients : ℚ) / quotients.length

/-- Clip fraction as the spec words it: the fraction of minibatch entries
whose importance quotient r satisfies |r - 1| > eps for the configured clip
parameter eps. -/
def spec_clip_fraction (eps : ℚ) (quotients : List ℚ) : ℚ :=
  (countAbove eps quotients : ℚ) / quotients.length

/-- Counterexample to C7: with configured eps = 3/2 and a single importance
quotient 2, clipping never binds (|2 - 1| = 1 is below eps), so the claim
demands clip fraction 0, but the code reports 1 because its threshold is the
hard-coded 0.2. -/
theorem clip_fraction_counterexample :
    clip_fraction [2] = 1 ∧ spec_clip_fraction (3 / 2) [2] = 0 ∧
      clip_fraction [2] ≠ spec_clip_fraction (3 / 2) [2] := by
  norm_num [clip_fraction, spec_clip_fraction, countAbove]

/-- C7 amended: the reported clip-fraction diagnostic equals the fraction of
minibatch entries with |quotient - 1| > 0.2, the fixed literal threshold,
for every minibatch - it agrees with the claim only when the configured clip
parameter happens to be 0.2. -/
theorem clip_fraction_fixed_threshold (quotients : List ℚ) :
    clip_fraction quotients = spec_clip_fraction (1 / 5) quotients :=
  rfl

/-- Global step counter over one rollout of ppo_continuous.py lines 223-224:
each of the num_steps loop iterations performs global_step += 1. -/
def torch_rollout_global_step (global_step : ℕ) : ℕ → ℕ
  | 0 => global_step
  | steps + 1 => torch_rollout_global_step (global_step + 1) steps

/-- Global step counter over one rollout of flax_ppo_atari.py lines 255-256
and flax_a2c_atari.py lines 237-238: each of the num_steps loop iterations
performs global_step += 1 * num_envs. -/
def flax_rollout_global_step (num_envs global_step : ℕ) : ℕ → ℕ
  | 0 => global_step
  | steps + 1 => flax_rollout_global_step num_envs (global_step + 1 * num_envs) steps

theorem torch_rollout_global_step_eq :
    ∀ (steps global_step : ℕ),
      torch_rollout_global_step global_step steps = global_step + steps := by
  intro steps
  induction steps with
  | zero => intro g; simp [torch_rollout_global_step]
  | succ k ih =>
    intro g
    rw [torch_rollout_global_step, ih]
    ring

theorem flax_rollout_global_step_eq :
    ∀ (steps num_envs global_step : ℕ),
      flax_rollout_global_step num_envs global_step steps =
        global_step + steps * num_envs := by
  intro steps
  induction steps with
  | zero => intro e g; simp [flax_rollout_global_step]
  | succ k ih =>
    intro e g
    rw [flax_rollout_global_step, ih]
    ring

/-- Counterexample to C8: in the PyTorch variant with num_envs = 2 and
num_steps = 3, a full rollout advances the counter by 3, not by
num_steps * num_envs = 6. -/
theorem global_step_counterexample :
    ¬ torch_rollout_global_step 0 3 = 0 + 3 * 2 := by
  decide

/-- C8 amended: in the Flax PPO and A2C variants every environment step
increments the counter by num_envs, so a full rollout advances it by
num_steps * num_envs; the PyTorch variant increments by 1 per step, so a
full rollout advances it by num_steps regardless of num_envs. -/
theorem rollout_global_step_amended (global_step num_envs num_steps : ℕ) :
    flax_rollout_global_step num_envs global_step num_steps =
      global_step + num_steps * num_envs ∧
    torch_rollout_global_step global_step num_steps =
      global_step + num_steps :=
  ⟨flax_rollout_global_step_eq num_steps num_envs global_step,
   torch_rollout_global_step_eq num_steps global_step⟩

/-- Scalar of the update path with an explicit non-finite element: some q is
a finite value, none models NaN.  Torch and JAX arithmetic propagate NaN
through every operation used in the loss, including clamp and elementwise
min, which is what the following operations encode. -/
abbrev FVal := Option ℚ

/-- Addition propagating the non-finite element. -/
def fadd : FVal → FVal → FVal
  | some a, some b => some (a + b)
  | _, _ => none

/-- Subtraction propagating the non-finite element. -/
def fsub : FVal → FVal → FVal
  | some a, some b => some (a - b)
  | _, _ => none

/-- Multiplication propagating the non-finite element. -/
def fmul : FVal → FVal → FVal
  | some a, some b => some (a * b)
  | _, _ => none

/-- Division propagating the non-finite element. -/
def fdiv : FVal → FVal → FVal
  | some a, some b => some (a / b)
  | _, _ => none

/-- Negation propagating the non-finite element. -/
def fneg : FVal → FVal
  | some a => some (-a)
  | none => none

/-- torch.clamp / jax.lax.clamp: NaN stays NaN. -/
def fclamp (lo hi : ℚ) : FVal → FVal
  | some a => some (min hi (max lo a))
  | none => none

/-- Elementwise torch.min / jnp.minimum: returns NaN when either argument is
NaN. -/
def fmin : FVal → FVal → FVal
  | some a, some b => some (min a b)
  | _, _ => none

/-- Sum of a tensor, NaN-propagating. -/
def fsum : List FVal → FVal
  | [] => some 0
  | x :: rest => fadd x (fsum rest)

/-- Mean of a tensor, as .mean() computes it: sum divided by length,
NaN-propagating. -/
def fmean (xs : List FVal) : FVal :=
  fdiv (fsum xs) (some (xs.length : ℚ))

/-- The minibatch loss of ppo_continuous.py lines 305-331 (same structure as
loss_fn of flax_ppo_atari.py lines 118-134), taking the outputs of the
policy evaluation (importance quotients exp(new_log_prob - old_log_prob),
value predictions, entropies) and the batch slices as inputs:
surr1 = advantages * quotients,
surr2 = advantages * clamp(quotients, 1 - eps, 1 + eps),
policy_loss = -mean(min(surr1, surr2)),
value_loss = value_factor * mean((td_predict - td_target)^2),
entropy_bonus = entropy_factor * mean(entropy),
loss = policy_loss + value_loss - entropy_bonus.
The function is total: the surrounding code performs no finiteness check and
unconditionally follows it with backward and the optimizer step. -/
def ppo_minibatch_loss (advantages quotients td_predict td_target_mb
    entropies : List FVal) (eps_clip value_factor entropy_factor : ℚ) :
    FVal :=
  let surr1 := List.zipWith fmul advantages quotients
  let surr2 := List.zipWith fmul advantages
    (quotients.map (fclamp (1 - eps_clip) (1 + eps_clip)))
  let policy_loss := fneg (fmean (List.zipWith fmin surr1 surr2))
  let value_loss := fmul (some value_factor)
    (fmean (List.zipWith (fun p t => fmul (fsub p t) (fsub p t)) td_predict
      td_target_mb))
  let entropy_bonus := fmul (some entropy_factor) (fmean entropies)
  fsub (fadd policy_loss value_loss) entropy_bonus

/-- C9 evaluation at the failing input: on a healthy singleton minibatch the
loss is a finite value, and injecting a non-finite advantage makes the loss
non-finite - yet it is still an ordinary return value of the total loss
function (there is no error outcome in the update path to signal with), so
the subsequent backward and optimizer step run on it unconditionally. -/
theorem nan_advantage_loss_not_raised :
    ppo_minibatch_loss [some 1] [some 1] [some 0] [some 0] [some 0]
        (1 / 5) (1 / 2) (1 / 100) ≠ none ∧
    ppo_minibatch_loss [none] [some 1] [some 0] [some 0] [some 0]
        (1 / 5) (1 / 2) (1 / 100) = none := by
  exact ⟨by decide, by decide⟩

/-- One transition's per-field columns across the parallel lanes, the
argument tuple of RolloutBuffer.push in flax_ppo_atari.py lines 161-169
(flax_a2c_atari.py omits log_prob; its buffer is the same code minus that
field, so the PPO buffer with the log_prob column ignored covers it). -/
structure Transition where
  state : ℕ → ℚ
  action : ℕ → ℤ
  reward : ℕ → ℚ
  flag : ℕ → ℚ
  logProb : ℕ → ℚ
  value : ℕ → ℚ

/-- RolloutBuffer of flax_ppo_atari.py lines 149-172: six parallel arrays of
shape [num_steps, num_envs, ...], a write cursor step and the capacity
num_steps. -/
structure RolloutBuffer where
  states : ℕ → ℕ → ℚ
  actions : ℕ → ℕ → ℤ
  rewards : ℕ → ℕ → ℚ
  flags : ℕ → ℕ → ℚ
  logProbs : ℕ → ℕ → ℚ
  values : ℕ → ℕ → ℚ
  step : ℕ
  numSteps : ℕ

/-- The constructor: np.zeros arrays, step = 0, the given capacity. -/
def RolloutBuffer.init (num_steps : ℕ) : RolloutBuffer where
  states := fun _ _ => 0
  actions := fun _ _ => 0
  rewards := fun _ _ => 0
  flags := fun _ _ => 0
  logProbs := fun _ _ => 0
  values := fun _ _ => 0
  step := 0
  numSteps := num_steps

/-- push of flax_ppo_atari.py lines 161-169: every field array is written at
index step (a whole lane column at once) and the cursor advances by 1 modulo
num_steps. -/
def RolloutBuffer.push (b : RolloutBuffer) (t : Transition) : RolloutBuffer where
  states := fun i n => if i = b.step then t.state n else b.states i n
  actions := fun i n => if i = b.step then t.action n else b.actions i n
  rewards := fun i n => if i = b.step then t.reward n else b.rewards i n
  flags := fun i n => if i = b.step then t.flag n else b.flags i n
  logProbs := fun i n => if i = b.step then t.logProb n else b.logProbs i n
  values := fun i n => if i = b.step then t.value n else b.values i n
  step := (b.step + 1) % b.numSteps
  numSteps := b.numSteps

/-- get of flax_ppo_atari.py lines 171-172: the tuple of the six full
stacked arrays. -/
def RolloutBuffer.get (b : RolloutBuffer) :
    (ℕ → ℕ → ℚ) × (ℕ → ℕ → ℤ) × (ℕ → ℕ → ℚ) × (ℕ → ℕ → ℚ) ×
      (ℕ → ℕ → ℚ) × (ℕ → ℕ → ℚ) :=
  (b.states, b.actions, b.rewards, b.flags, b.logProbs, b.values)

/-- A sequence of pushes, in order. -/
def pushAll (b : RolloutBuffer) : List Transition → RolloutBuffer
  | [] => b
  | t :: rest => pushAll (b.push t) rest

/-- The arrays returned by get hold transition t at time index i. -/
def RolloutBuffer.entryEq (b : RolloutBuffer) (i : ℕ) (t : Transition) :
    Prop :=
  b.get.1 i = t.state ∧ b.get.2.1 i = t.action ∧ b.get.2.2.1 i = t.reward ∧
    b.get.2.2.2.1 i = t.flag ∧ b.get.2.2.2.2.1 i = t.logProb ∧
    b.get.2.2.2.2.2 i = t.value

/-- Two buffers agree on every field at time index i. -/
def sameEntry (b b2 : RolloutBuffer) (i : ℕ) : Prop :=
  b.states i = b2.states i ∧ b.actions i = b2.actions i ∧
    b.rewards i = b2.rewards i ∧ b.flags i = b2.flags i ∧
    b.logProbs i = b2.logProbs i ∧ b.values i = b2.values i

theorem sameEntry_refl (b : RolloutBuffer) (i : ℕ) : sameEntry b b i :=
  ⟨rfl, rfl, rfl, rfl, rfl, rfl⟩

theorem sameEntry_trans {b3 b2 b1 : RolloutBuffer} {i : ℕ}
    (h : sameEntry b3 b2 i) (h2 : sameEntry b2 b1 i) : sameEntry b3 b1 i :=
  ⟨h.1.trans h2.1, h.2.1.trans h2.2.1, h.2.2.1.trans h2.2.2.1,
   h.2.2.2.1.trans h2.2.2.2.1, h.2.2.2.2.1.trans h2.2.2.2.2.1,
   h.2.2.2.2.2.trans h2.2.2.2.2.2⟩

theorem entryEq_of_sameEntry {b2 b : RolloutBuffer} {i : ℕ} {t : Transition}
    (h : sameEntry b2 b i) (h2 : b.entryEq i t) : b2.entryEq i t :=
  ⟨h.1.trans h2.1, h.2.1.trans h2.2.1, h.2.2.1.trans h2.2.2.1,
   h.2.2.2.1.trans h2.2.2.2.1, h.2.2.2.2.1.trans h2.2.2.2.2.1,
   h.2.2.2.2.2.trans h2.2.2.2.2.2⟩

/-- A push leaves every time index other than the cursor untouched. -/
theorem sameEntry_push (b : RolloutBuffer) (t : Transition) (i : ℕ)
    (h : i ≠ b.step) : sameEntry (b.push t) b i := by
  refine ⟨?_, ?_, ?_, ?_, ?_, ?_⟩ <;>
    · funext n
      simp [RolloutBuffer.push, h]

/-- A push writes all six fields of the transition at the cursor index. -/
theorem entryEq_push (b : RolloutBuffer) (t : Transition) :
    (b.push t).entryEq b.step t := by
  refine ⟨?_, ?_, ?_, ?_, ?_, ?_⟩ <;>
    · funext n
      simp [RolloutBuffer.entryEq, RolloutBuffer.get, RolloutBuffer.push]

/-- Behaviour of a run of pushes that fits inside the capacity: the cursor
lands at (start + count) mod capacity, indices below the starting cursor are
untouched, and index start + j holds the j-th pushed transition. -/
theorem pushAll_spec (N : ℕ) :
    ∀ (ts : List Transition) (b : RolloutBuffer),
      b.numSteps = N → b.step < N → b.step + ts.length ≤ N →
      (pushAll b ts).numSteps = N ∧
      (pushAll b ts).step = (b.step + ts.length) % N ∧
      (∀ i, i < b.step → sameEntry (pushAll b ts) b i) ∧
      (∀ j (hj : j < ts.length),
        (pushAll b ts).entryEq (b.step + j) (ts.get ⟨j, hj⟩)) := by
  intro ts
  induction ts with
  | nil =>
    intro b h1 h2 _
    refine ⟨h1, ?_, fun i _ => sameEntry_refl _ i, fun j hj => absurd hj (by simp)⟩
    simp [pushAll, Nat.mod_eq_of_lt h2]
  | cons t rest ih =>
    intro b h1 h2 h3
    have hlen : (t :: rest).length = rest.length + 1 := rfl
    have hnum : (b.push t).numSteps = N := h1
    have hpa : pushAll b (t :: rest) = pushAll (b.push t) rest := rfl
    by_cases hw : b.step + 1 < N
    · have hstep : (b.push t).step = b.step + 1 := by
        show (b.step + 1) % b.numSteps = b.step + 1
        rw [h1]
        exact Nat.mod_eq_of_lt hw
      obtain ⟨g1, g2, g3, g4⟩ := ih (b.push t) hnum (by omega)
        (by rw [hstep]; omega)
      refine ⟨by rw [hpa]; exact g1, ?_, ?_, ?_⟩
      · rw [hpa, g2, hstep, hlen]
        congr 1
        omega
      · intro i hi
        rw [hpa]
        exact sameEntry_trans (g3 i (by omega)) (sameEntry_push b t i (by omega))
      · intro j hj
        rw [hpa]
        match j with
        | 0 =>
          have hi : b.step < (b.push t).step := by omega
          simpa using entryEq_of_sameEntry (g3 b.step hi) (entryEq_push b t)
        | j' + 1 =>
          have hj' : j' < rest.length := by
            simp only [hlen] at hj
            omega
          have := g4 j' hj'
          rw [hstep] at this
          have harith : b.step + (j' + 1) = b.step + 1 + j' := by omega
          rw [harith]
          exact this
    · have hbn : b.step + 1 = N := by omega
      have hrest : rest = [] := by
        have : rest.length = 0 := by
          rw [hlen] at h3
          omega
        exact List.eq_nil_of_length_eq_zero this
      subst hrest
      have hone : pushAll b [t] = b.push t := rfl
      refine ⟨hnum, ?_, ?_, ?_⟩
      · rw [hone]
        show (b.step + 1) % b.numSteps = (b.step + [t].length) % N
        rw [h1]
        rfl
      · intro i hi
        rw [hone]
        exact sameEntry_push b t i (by omega)
      · intro j hj
        have hj0 : j = 0 := by
          simp only [List.length_singleton] at hj
          omega
        subst hj0
        rw [hone]
        simpa using entryEq_push b t

/-- C10: for a buffer of positive capacity N, a push writes all fields at
the cursor and the advanced cursor stays inside [0, N); and starting from a
fresh buffer, after exactly N pushes the cursor is back at 0 and the arrays
returned by get hold exactly those N transitions in push order. -/
theorem rollout_buffer_ring (N : ℕ) (hN : 0 < N) :
    (∀ (b : RolloutBuffer) (t : Transition), b.numSteps = N →
      (b.push t).step < N ∧ (b.push t).entryEq b.step t) ∧
    (∀ ts : List Transition, ts.length = N →
      (pushAll (RolloutBuffer.init N) ts).step = 0 ∧
      ∀ j (hj : j < ts.length),
        (pushAll (RolloutBuffer.init N) ts).entryEq j (ts.get ⟨j, hj⟩)) := by
  constructor
  · intro b t hb
    refine ⟨?_, entryEq_push b t⟩
    show (b.step + 1) % b.numSteps < N
    rw [hb]
    exact Nat.mod_lt _ hN
  · intro ts hts
    obtain ⟨g1, g2, g3, g4⟩ := pushAll_spec N ts (RolloutBuffer.init N) rfl
      hN (by simp [RolloutBuffer.init, hts])
    refine ⟨?_, ?_⟩
    · rw [g2]
      show (0 + ts.length) % N = 0
      rw [hts]
      simp
    · intro j hj
      have := g4 j hj
      simpa [RolloutBuffer.init] using this

/-- Witness for C10 at the concrete capacity 2. -/
theorem rollout_buffer_ring_witness :
    0 < 2 ∧
    ((∀ (b : RolloutBuffer) (t : Transition), b.numSteps = 2 →
      (b.push t).step < 2 ∧ (b.push t).entryEq b.step t) ∧
    (∀ ts : List Transition, ts.length = 2 →
      (pushAll (RolloutBuffer.init 2) ts).step = 0 ∧
      ∀ j (hj : j < ts.length),
        (pushAll (RolloutBuffer.init 2) ts).entryEq j (ts.get ⟨j, hj⟩))) :=
  ⟨by decide, rollout_buffer_ring 2 (by decide)⟩

end RLBasics
